import Mathlib

/-!
Verification of the multi-tenant SQL namespacing and Redis-backed context
core of the repository (src/SQL_Execution_New/server.py,
src/SQL_Execution_New/context_manager.py, src/SQL_Execution_New/redis_client.py).

Python strings are modelled as `List Char`; Python dicts as association
lists preserving insertion order; Redis as an explicit store state with a
mode flag (`ok` / `down` = `is_redis_available()` false / `failing` =
every Redis call raises).  Names ending in the word "prefix" in the source
(`get_table_prefix`, `add_table_prefix`, `remove_table_prefix`,
`rewrite_query_with_prefix`) are rendered here with the abbreviation
`pfx` for that word.
-/

set_option maxRecDepth 20000

abbrev Str := List Char

/-- `get_table_prefix` (server.py:154): `"proj_" + project_id.replace('-','')[:8] + "_"`. -/
def get_table_pfx (project_id : Str) : Str :=
  ("proj_".toList) ++ (project_id.filter (fun c => c ≠ '-')).take 8 ++ ("_".toList)

/-- `add_table_prefix` (server.py:161): prepend the project prefix unless already present. -/
def add_table_pfx (table_name : Str) (project_id : Str) : Str :=
  let p := get_table_pfx project_id
  if p <+: table_name then table_name else p ++ table_name

/-- `remove_table_prefix` (server.py:170): strip the project prefix if present. -/
def remove_table_pfx (prefixed_name : Str) (project_id : Str) : Str :=
  let p := get_table_pfx project_id
  if p <+: prefixed_name then prefixed_name.drop p.length else prefixed_name

/-- C2: for every table name that does not start with the generic tag
`proj_` and every project id, prefixing then stripping for the same
project restores the original name. -/
theorem remove_add_table_pfx_roundtrip (t p : Str)
    (h : ¬ (("proj_".toList) <+: t)) :
    remove_table_pfx (add_table_pfx t p) p = t := by
  have hnp : ¬ (get_table_pfx p <+: t) := by
    intro hp
    exact h (List.IsPrefix.trans ⟨(p.filter (fun c => c ≠ '-')).take 8 ++ ("_".toList), by
      simp [get_table_pfx]⟩ hp)
  have hadd : add_table_pfx t p = get_table_pfx p ++ t := by
    simp [add_table_pfx, hnp]
  rw [remove_table_pfx, hadd]
  simp

/-- Witness for C2 at `t = "orders"`, `p = "abcd-1234-efgh"`. -/
theorem remove_add_table_pfx_roundtrip_witness :
    ¬ (("proj_".toList) <+: ("orders".toList)) ∧
      remove_table_pfx (add_table_pfx ("orders".toList) ("abcd-1234-efgh".toList))
        ("abcd-1234-efgh".toList) = ("orders".toList) :=
  ⟨by decide, remove_add_table_pfx_roundtrip ("orders".toList) ("abcd-1234-efgh".toList)
    (by decide)⟩

/-- The character class `[a-zA-Z0-9_]` of the extraction patterns in
`extract_tables_from_query` (server.py:136-142); also the word characters
relevant to the `\b` boundaries used by `rewrite_query_with_prefix`. -/
def isWordChar (c : Char) : Bool :=
  ('a' ≤ c && c ≤ 'z') || ('A' ≤ c && c ≤ 'Z') || ('0' ≤ c && c ≤ '9') || c == '_'

/-- The regex class `\s`: space, tab, newline, carriage return, form feed,
vertical tab. -/
def isSpaceChar (c : Char) : Bool :=
  c == ' ' || c == '\t' || c == '\n' || c == '\r' || c == '\x0b' || c == '\x0c'

/-- Case-insensitive character comparison, as `re.IGNORECASE` behaves on the
ASCII keywords and identifiers involved. -/
def ciEq (a b : Char) : Bool := a.toLower == b.toLower

/-- Strip `kw` case-insensitively from the front of `s`; `none` when `s` does
not start with `kw`. -/
def ciStripKw : Str → Str → Option Str
  | [], s => some s
  | _ :: _, [] => none
  | k :: ks, c :: cs => if ciEq k c then ciStripKw ks cs else none

/-- Attempt a match of the pattern `kw\s+([a-zA-Z0-9_]+)` at the head of `s`
(case-insensitive).  Returns the captured identifier and the text following
the whole match, mirroring how `re.findall` resumes after each match. -/
def tryKwMatch (kw : Str) (s : Str) : Option (Str × Str) :=
  match ciStripKw kw s with
  | none => none
  | some rest =>
    let sp := rest.takeWhile isSpaceChar
    if sp = [] then none
    else
      let rest2 := rest.drop sp.length
      let w := rest2.takeWhile isWordChar
      if w = [] then none else some (w, rest2.drop w.length)

/-- Left-to-right scan collecting all non-overlapping matches of
`kw\s+([a-zA-Z0-9_]+)`, with fuel bounding the recursion (fuel equal to the
text length always suffices since every step consumes at least one
character). -/
def scanKwAux (kw : Str) : Nat → Str → List Str
  | 0, _ => []
  | _ + 1, [] => []
  | n + 1, c :: rest =>
    match tryKwMatch kw (c :: rest) with
    | some (w, remaining) => w :: scanKwAux kw n remaining
    | none => scanKwAux kw n rest

def scanKw (kw : Str) (s : Str) : List Str := scanKwAux kw s.length s

/-- Deduplication keeping first occurrences, modelling the `set` collected in
`extract_tables_from_query` (Python set iteration order is unspecified; the
claims settled here depend only on membership or single-element results). -/
def dedupFirst (l : List Str) : List Str :=
  l.foldl (fun acc x => if x ∈ acc then acc else acc ++ [x]) []

/-- `extract_tables_from_query` (server.py:132-151): identifiers following
`FROM`, `JOIN`, `INTO`, `UPDATE`, `TABLE` (case-insensitive), collected as a
set. -/
def extract_tables_from_query (query : Str) : List Str :=
  dedupFirst
    (scanKw ("FROM".toList) query ++ scanKw ("JOIN".toList) query ++
     scanKw ("INTO".toList) query ++ scanKw ("UPDATE".toList) query ++
     scanKw ("TABLE".toList) query)

/-- The `\b` boundary after a match whose last character is a word
character: satisfied at end of text or before a non-word character. -/
def wordBoundaryAfter : Str → Bool
  | [] => true
  | c :: _ => !(isWordChar c)

/-- Case-insensitive "starts with" used when matching the escaped table name. -/
def ciIsPrefixOfStr : Str → Str → Bool
  | [], _ => true
  | _ :: _, [] => false
  | k :: ks, c :: cs => ciEq k c && ciIsPrefixOfStr ks cs

/-- Replacement-template items of `re.sub`: literal characters and `\g<0>`
(the whole match).  The patterns built by `rewrite_query_with_prefix` carry
no capture groups, so every other group reference is invalid. -/
inductive ReplItem where
  | lit (c : Char)
  | group0

def isDigitChar (c : Char) : Bool := '0' ≤ c && c ≤ '9'

def isOctDigitChar (c : Char) : Bool := '0' ≤ c && c ≤ '7'

def isAsciiLetterChar (c : Char) : Bool :=
  ('a' ≤ c && c ≤ 'z') || ('A' ≤ c && c ≤ 'Z')

/-- Python's `sre_parse.parse_template` on the replacement string, for a
pattern with zero capture groups; `none` models a raised exception (which
the source's `try/except` catches, server.py:213-215).  Raising cases: a
trailing backslash (bad escape at end), `\g` without a well-formed
`<number>` reference, any reference to a group other than 0 (`\1`, `\12`,
`\g<1>`, a named group), a non-`ESCAPES` ASCII-letter escape, and a
three-digit octal escape above 0o377.  Non-raising cases: plain characters,
the `ESCAPES` control escapes (`\a \b \f \n \r \t \v \\`), `\0`-style
and three-digit octal escapes, `\g<0>` (the whole match), and a backslash
before a non-alphanumeric character, which is kept verbatim.  Fuel equal to
the length plus one suffices: each step consumes at least one character. -/
def templateParseAux : Nat → Str → Option (List ReplItem)
  | 0, _ => none
  | _ + 1, [] => some []
  | n + 1, c :: rest =>
    if c ≠ '\\' then (templateParseAux n rest).map (fun l => .lit c :: l)
    else
      match rest with
      | [] => none
      | e :: rest2 =>
        if e = 'g' then
          match rest2 with
          | [] => none
          | c3 :: rest3 =>
            if c3 ≠ '<' then none
            else
              let name := rest3.takeWhile (fun x => x ≠ '>')
              match rest3.drop name.length with
              | [] => none
              | _ :: rest4 =>
                if name ≠ [] ∧ name.all (fun d => isDigitChar d) then
                  if name.all (fun d => d = '0') then
                    (templateParseAux n rest4).map (fun l => .group0 :: l)
                  else none
                else none
        else if e = '0' then
          let ds := (rest2.take 2).takeWhile isOctDigitChar
          let v := ds.foldl (fun a d => a * 8 + (d.toNat - 48)) 0
          (templateParseAux n (rest2.drop ds.length)).map
            (fun l => .lit (Char.ofNat v) :: l)
        else if isDigitChar e then
          match rest2 with
          | d2 :: d3 :: rest4 =>
            if isDigitChar d2 && isOctDigitChar e && isOctDigitChar d2 &&
                isOctDigitChar d3 then
              let v := (e.toNat - 48) * 64 + (d2.toNat - 48) * 8 + (d3.toNat - 48)
              if 255 < v then none
              else (templateParseAux n rest4).map (fun l => .lit (Char.ofNat v) :: l)
            else none
          | _ => none
        else if e = 'a' then (templateParseAux n rest2).map (fun l => .lit '\x07' :: l)
        else if e = 'b' then (templateParseAux n rest2).map (fun l => .lit '\x08' :: l)
        else if e = 'f' then (templateParseAux n rest2).map (fun l => .lit '\x0c' :: l)
        else if e = 'n' then (templateParseAux n rest2).map (fun l => .lit '\n' :: l)
        else if e = 'r' then (templateParseAux n rest2).map (fun l => .lit '\r' :: l)
        else if e = 't' then (templateParseAux n rest2).map (fun l => .lit '\t' :: l)
        else if e = 'v' then (templateParseAux n rest2).map (fun l => .lit '\x0b' :: l)
        else if e = '\\' then (templateParseAux n rest2).map (fun l => .lit '\\' :: l)
        else if isAsciiLetterChar e then none
        else (templateParseAux n rest2).map (fun l => .lit '\\' :: .lit e :: l)

def templateParse (r : Str) : Option (List ReplItem) :=
  templateParseAux (r.length + 1) r

/-- Expand a parsed template at one match site: `group0` inserts the
matched text. -/
def expandRepl : List ReplItem → Str → Str
  | [], _ => []
  | .lit c :: items, m => c :: expandRepl items m
  | .group0 :: items, m => m ++ expandRepl items m

/-- One pass of `re.sub(r'\b' + re.escape(tgt) + r'\b', repl, s,
flags=re.IGNORECASE)` for a target made of word characters (always the case
here: targets are captures of `[a-zA-Z0-9_]+`) and an already-parsed
replacement template.  `prevW` records whether the previous character of
the original text was a word character (the leading `\b`); matches are
non-overlapping and scanned left to right, and at each site the template is
expanded against the matched text.  Fuel equal to the text length suffices
since each step consumes at least one character. -/
def subWordCiAux (tgt : Str) (repl : List ReplItem) : Nat → Bool → Str → Str
  | 0, _, s => s
  | _ + 1, _, [] => []
  | n + 1, prevW, c :: rest =>
    if !prevW && ciIsPrefixOfStr tgt (c :: rest) &&
        wordBoundaryAfter ((c :: rest).drop tgt.length) then
      expandRepl repl ((c :: rest).take tgt.length) ++
        subWordCiAux tgt repl n true ((c :: rest).drop tgt.length)
    else
      c :: subWordCiAux tgt repl n (isWordChar c) rest

def subWordCi (tgt : Str) (repl : List ReplItem) (s : Str) : Str :=
  subWordCiAux tgt repl s.length false s

/-- The source's rewrite loop (server.py:199-208): for each extracted table
name, skip those already carrying the `proj_` tag, otherwise run `re.sub`,
whose replacement template is parsed first; `none` models an exception
escaping the loop. -/
def rewriteTables (project_id : Str) : List Str → Str → Option Str
  | [], acc => some acc
  | t :: ts, acc =>
    if ("proj_".toList) <+: t then rewriteTables project_id ts acc
    else
      match templateParse (add_table_pfx t project_id) with
      | none => none
      | some items => rewriteTables project_id ts (subWordCi t items acc)

/-- `rewrite_query_with_prefix` (server.py:178-215): for every extracted
table name not already carrying the generic `proj_` tag, substitute every
whole-word, case-insensitive occurrence with its prefixed form.  The
replacement string handed to `re.sub` is a template embedding the
caller-supplied project id, so an id whose dash-stripped 8-character prefix
forms an invalid template escape (for instance `\1`) makes `re.sub` raise
and the `try/except` (server.py:213-215) return the original, unrewritten
text.  The guard `if not query or not project_id` is the source's early
return; the `sqlparse.parse` emptiness check is subsumed by it (parsing a
nonempty text yields a nonempty statement list). -/
def rewrite_query_with_pfx (query project_id : Str) : Str :=
  if query = [] ∨ project_id = [] then query
  else
    match rewriteTables project_id (extract_tables_from_query query) query with
    | some r => r
    | none => query

/-- `is_ddl_query` (server.py:218-231): the trimmed, uppercased text starts
with one of the fixed keyword pairs. -/
def is_ddl_query (query : Str) : Bool :=
  let qU := ((query.dropWhile isSpaceChar).reverse.dropWhile isSpaceChar).reverse.map Char.toUpper
  [("CREATE TABLE".toList), ("CREATE VIEW".toList), ("CREATE INDEX".toList),
   ("ALTER TABLE".toList), ("ALTER VIEW".toList),
   ("DROP TABLE".toList), ("DROP VIEW".toList), ("DROP INDEX".toList),
   ("RENAME TABLE".toList), ("TRUNCATE TABLE".toList)].any
    (fun kw => kw.isPrefixOf qU)

/-- The sample query of the specification's rewrite property. -/
def sampleQuery : Str := ("SELECT a, b FROM orders WHERE customer = 'orders'".toList)

/-- The project prefix always starts with `p`, so it is never a prefix of
`orders`. -/
theorem not_pfx_orders (pid : Str) : ¬ (get_table_pfx pid <+: ("orders".toList)) := by
  rintro ⟨u, hu⟩
  have h0 : (get_table_pfx pid ++ u).head? = some 'p' := rfl
  rw [hu] at h0
  exact absurd h0 (by decide)

/-- C1 counterexample: rewriting the spec's sample query for the concrete
project id `abcd-1234` substitutes the table identifier inside the quoted
string literal as well; the result is not the text in which only the
identifier following `FROM` changed. -/
theorem rewrite_mutates_literal_counterexample :
    rewrite_query_with_pfx sampleQuery ("abcd-1234".toList) =
      ("SELECT a, b FROM proj_abcd1234_orders WHERE customer = 'proj_abcd1234_orders'".toList) ∧
    rewrite_query_with_pfx sampleQuery ("abcd-1234".toList) ≠
      ("SELECT a, b FROM proj_abcd1234_orders WHERE customer = 'orders'".toList) :=
  ⟨by decide, by decide⟩

theorem templateParseAux_no_backslash :
    ∀ (n : Nat) (r : Str), r.length < n → '\\' ∉ r →
      templateParseAux n r = some (r.map ReplItem.lit) := by
  intro n
  induction n with
  | zero =>
    intro r h _
    omega
  | succ n ih =>
    intro r hlen hbs
    cases r with
    | nil => rfl
    | cons c rest =>
      simp only [List.mem_cons, not_or] at hbs
      have hc : c ≠ '\\' := fun hcc => hbs.1 hcc.symm
      simp only [templateParseAux, if_pos hc]
      rw [ih rest (by simp only [List.length_cons] at hlen; omega) hbs.2]
      rfl

/-- A backslash-free replacement string parses to itself: every character is
a literal template item. -/
theorem templateParse_no_backslash (r : Str) (h : '\\' ∉ r) :
    templateParse r = some (r.map ReplItem.lit) :=
  templateParseAux_no_backslash (r.length + 1) r (by omega) h

theorem expandRepl_map_lit (r m : Str) : expandRepl (r.map ReplItem.lit) m = r := by
  induction r with
  | nil => rfl
  | cons c cs ih => simp [expandRepl, ih]

/-- Substituting `orders` in the sample query expands the template at both
match sites — the identifier after `FROM` and the contents of the quoted
string literal. -/
theorem subWordCi_sample (items : List ReplItem) :
    subWordCi ("orders".toList) items sampleQuery
      = ("SELECT a, b FROM ".toList) ++ expandRepl items ("orders".toList) ++
        (" WHERE customer = '".toList) ++ expandRepl items ("orders".toList) ++
        ("'".toList) := by
  simp only [List.append_assoc]
  rfl

/-- C1 amended: for every nonempty project id whose derived prefix is free
of backslashes, rewriting the sample query substitutes every whole-word
occurrence of the extracted identifier `orders`, including the occurrence
inside the quoted string literal: the literal `'orders'` becomes
`'proj_<id8>_orders'` rather than being left unchanged.  When the prefix
does embed an invalid template escape — project id `\1` — `re.sub` raises
and the whole rewrite falls back to the original, unrewritten text. -/
theorem rewrite_sample_substitutes_everywhere (pid : Str) (h : pid ≠ [])
    (hbs : '\\' ∉ get_table_pfx pid) :
    rewrite_query_with_pfx sampleQuery pid =
      ("SELECT a, b FROM ".toList) ++ (get_table_pfx pid ++ ("orders".toList)) ++
        (" WHERE customer = '".toList) ++ (get_table_pfx pid ++ ("orders".toList)) ++
        ("'".toList) ∧
    rewrite_query_with_pfx sampleQuery (['\\', '1'] : Str) = sampleQuery := by
  constructor
  · have hext : extract_tables_from_query sampleQuery = [("orders".toList)] := by decide
    have hadd : add_table_pfx ("orders".toList) pid
        = get_table_pfx pid ++ ("orders".toList) := by
      simp only [add_table_pfx]
      rw [if_neg (not_pfx_orders pid)]
    have hbs2 : '\\' ∉ get_table_pfx pid ++ ("orders".toList) := by
      simp only [List.mem_append, not_or]
      exact ⟨hbs, by decide⟩
    have htpl : templateParse (add_table_pfx ("orders".toList) pid)
        = some ((get_table_pfx pid ++ ("orders".toList)).map ReplItem.lit) := by
      rw [hadd]
      exact templateParse_no_backslash _ hbs2
    have htab : rewriteTables pid [("orders".toList)] sampleQuery
        = some (subWordCi ("orders".toList)
            ((get_table_pfx pid ++ ("orders".toList)).map ReplItem.lit) sampleQuery) := by
      simp only [rewriteTables]
      rw [if_neg (by decide : ¬ (("proj_".toList) <+: ("orders".toList))), htpl]
    rw [rewrite_query_with_pfx, if_neg (by simp [sampleQuery, h]), hext, htab,
      subWordCi_sample]
    simp only [expandRepl_map_lit, List.append_assoc]
  · decide

/-- Witness for the amended C1 at `pid = "abcd-1234"` (nonempty,
backslash-free prefix). -/
theorem rewrite_sample_substitutes_everywhere_witness :
    ("abcd-1234".toList : Str) ≠ [] ∧
    '\\' ∉ get_table_pfx ("abcd-1234".toList) ∧
    (rewrite_query_with_pfx sampleQuery ("abcd-1234".toList) =
        ("SELECT a, b FROM ".toList) ++
          (get_table_pfx ("abcd-1234".toList) ++ ("orders".toList)) ++
          (" WHERE customer = '".toList) ++
          (get_table_pfx ("abcd-1234".toList) ++ ("orders".toList)) ++ ("'".toList) ∧
      rewrite_query_with_pfx sampleQuery (['\\', '1'] : Str) = sampleQuery) :=
  ⟨by decide, by decide,
    rewrite_sample_substitutes_everywhere ("abcd-1234".toList) (by decide) (by decide)⟩

/-- C8 counterexample: on `CREATE TABLE IF NOT EXISTS t (id INT)` the
extraction returns the keyword fragment `IF` (the identifier immediately
following `TABLE`), and not the table name `t`. -/
theorem extract_create_if_not_exists_counterexample :
    extract_tables_from_query ("CREATE TABLE IF NOT EXISTS t (id INT)".toList)
        = [("IF".toList)] ∧
      ("t".toList) ∉ extract_tables_from_query
        ("CREATE TABLE IF NOT EXISTS t (id INT)".toList) :=
  ⟨by decide, by decide⟩

/-- C8 amended: the extraction is a case-insensitive scan returning the
identifier immediately following each of `FROM`, `JOIN`, `INTO`, `UPDATE`
and `TABLE`, with no `IF NOT EXISTS` awareness: `CREATE TABLE IF NOT
EXISTS t` yields `IF`, while the other keyword forms yield the table
names. -/
theorem extract_tables_keyword_scan :
    extract_tables_from_query ("CREATE TABLE IF NOT EXISTS t (id INT)".toList)
        = [("IF".toList)] ∧
      extract_tables_from_query ("CREATE TABLE t (id INT)".toList) = [("t".toList)] ∧
      extract_tables_from_query ("select a from orders".toList) = [("orders".toList)] ∧
      extract_tables_from_query ("SELECT x FROM a JOIN b ON a.id = b.id".toList)
        = [("a".toList), ("b".toList)] ∧
      extract_tables_from_query ("INSERT INTO logs VALUES (1)".toList) = [("logs".toList)] ∧
      extract_tables_from_query ("UPDATE users SET x = 1".toList) = [("users".toList)] :=
  ⟨by decide, by decide, by decide, by decide, by decide, by decide⟩

/-- JSON scalar/list values stored in context dictionaries.  Message payloads
(opaque structured JSON in the source) are modelled by their serialized text;
no settled claim inspects message contents. -/
inductive DVal where
  | str : Str → DVal
  | num : Int → DVal
  | jbool : Bool → DVal
  | null : DVal
  | strs : List Str → DVal
  deriving DecidableEq

instance : Inhabited DVal := ⟨DVal.null⟩

/-- A Python dict / JSON object, as an insertion-ordered association list. -/
abbrev Dict := List (Str × DVal)

/-- The key layout of context_manager.py: `project:{id}:metadata`,
`project:{id}:schema`, `project:{id}:ai:session:{sid}`,
`project:{id}:intents`.  Ids are assumed free of the `:` separator (they are
UUIDs in the source), so this structured form is injective. -/
inductive RKey where
  | metadata (pid : Str)
  | schema (pid : Str)
  | aiSession (pid : Str) (sid : Str)
  | intents (pid : Str)
  deriving DecidableEq

/-- Redis availability, as redis_client.py exposes it: `ok` (connected and
working), `down` (`is_redis_available()` false), `failing` (connected per the
availability flag, but every operation raises). -/
inductive StoreMode where
  | ok | down | failing
  deriving DecidableEq

/-- The Redis state: string-valued keys (JSON dicts), list-valued keys
(the intents lists), and remaining TTLs.  Keys with no entry in `ttls` are
persistent (`TTL -1`); association lists record first-creation order, a
deterministic instance of Redis's unspecified `KEYS` enumeration order. -/
structure Store where
  mode : StoreMode
  kv : List (RKey × Dict)
  lists : List (RKey × List Dict)
  ttls : List (RKey × Nat)
  deriving DecidableEq

/-- Association-list read. -/
def aget {κ α : Type} [DecidableEq κ] : List (κ × α) → κ → Option α
  | [], _ => none
  | (k, v) :: rest, q => if k = q then some v else aget rest q

/-- Association-list write: overwrite in place, or append a new binding at
the end (Python-dict insertion order). -/
def aset {κ α : Type} [DecidableEq κ] : List (κ × α) → κ → α → List (κ × α)
  | [], q, v => [(q, v)]
  | (k, w) :: rest, q, v => if k = q then (q, v) :: rest else (k, w) :: aset rest q v

/-- Association-list delete. -/
def adel {κ α : Type} [DecidableEq κ] : List (κ × α) → κ → List (κ × α)
  | [], _ => []
  | (k, v) :: rest, q => if k = q then adel rest q else (k, v) :: adel rest q

/-- `d.update(u)` of Python dicts. -/
def dmerge (d u : Dict) : Dict := u.foldl (fun d kv => aset d kv.1 kv.2) d

/-- Redis `LRANGE`/`LTRIM` index semantics: inclusive bounds, negative
indices counted from the end, graceful clamping. -/
def sliceIdx {α : Type} (l : List α) (start stop : Int) : List α :=
  let n : Int := l.length
  let a : Int := if start < 0 then max (start + n) 0 else start
  let b : Int := if stop < 0 then stop + n else stop
  if b < a then [] else (l.drop a.toNat).take (b - a + 1).toNat

def keyExists (s : Store) (k : RKey) : Bool :=
  (aget s.kv k).isSome || (aget s.lists k).isSome

/-- `redis.get`: raises when the client is failing, else the stored value. -/
def rGet (s : Store) (k : RKey) : Except Unit (Option Dict) :=
  if s.mode = .failing then .error () else .ok (aget s.kv k)

/-- `redis.set`: plain SET also clears any existing TTL. -/
def rSet (s : Store) (k : RKey) (v : Dict) : Except Unit Store :=
  if s.mode = .failing then .error ()
  else .ok { s with kv := aset s.kv k v, ttls := adel s.ttls k }

/-- `redis.setex`: set value and TTL together. -/
def rSetex (s : Store) (k : RKey) (ttl : Nat) (v : Dict) : Except Unit Store :=
  if s.mode = .failing then .error ()
  else .ok { s with kv := aset s.kv k v, ttls := aset s.ttls k ttl }

/-- `redis.delete` on one key: returns the number of keys removed. -/
def rDelete (s : Store) (k : RKey) : Except Unit (Nat × Store) :=
  if s.mode = .failing then .error ()
  else .ok ((if keyExists s k then 1 else 0),
    { s with kv := adel s.kv k, lists := adel s.lists k, ttls := adel s.ttls k })

/-- `redis.lpush`: prepend to the list, creating the key when absent. -/
def rLpush (s : Store) (k : RKey) (v : Dict) : Except Unit Store :=
  if s.mode = .failing then .error ()
  else .ok { s with lists := aset s.lists k (v :: ((aget s.lists k).getD [])) }

/-- `redis.ltrim`: keep the inclusive slice; Redis removes the key when the
resulting slice is empty. -/
def rLtrim (s : Store) (k : RKey) (start stop : Int) : Except Unit Store :=
  if s.mode = .failing then .error ()
  else
    let l := (aget s.lists k).getD []
    let l2 := sliceIdx l start stop
    .ok { s with lists := if l2 = [] then adel s.lists k else aset s.lists k l2 }

/-- `redis.lrange`: the inclusive slice; empty for a missing key. -/
def rLrange (s : Store) (k : RKey) (start stop : Int) : Except Unit (List Dict) :=
  if s.mode = .failing then .error ()
  else .ok (sliceIdx ((aget s.lists k).getD []) start stop)

/-- `redis.ttl`: `-2` for a missing key, `-1` for a key with no expiry, else
the remaining time. -/
def rTtl (s : Store) (k : RKey) : Except Unit Int :=
  if s.mode = .failing then .error ()
  else .ok (match aget s.ttls k with
    | some t => (t : Int)
    | none => if keyExists s k then -1 else -2)

/-- `redis.expire`: set a TTL on an existing key. -/
def rExpire (s : Store) (k : RKey) (t : Nat) : Except Unit Store :=
  if s.mode = .failing then .error ()
  else .ok (if keyExists s k then { s with ttls := aset s.ttls k t } else s)

/-- `redis.info` (used only by `health_check`); its payload is external
introspection data, modelled as opaque success. -/
def rInfo (s : Store) : Except Unit Unit :=
  if s.mode = .failing then .error () else .ok ()

/-- `redis.keys("project:*:metadata")` in first-creation order. -/
def rKeysMetadata (s : Store) : Except Unit (List RKey) :=
  if s.mode = .failing then .error ()
  else .ok ((s.kv.map Prod.fst).filter (fun k => match k with
    | .metadata _ => true
    | _ => false))

/-- The keys matching `project:{pid}:ai:session:*`, in first-creation order. -/
def aiSessionKeys (s : Store) (pid : Str) : List RKey :=
  (s.kv.map Prod.fst).filter (fun k => match k with
    | .aiSession p _ => p == pid
    | _ => false)

def rKeysAiSession (s : Store) (pid : Str) : Except Unit (List RKey) :=
  if s.mode = .failing then .error () else .ok (aiSessionKeys s pid)

def rkeyPid : RKey → Str
  | .metadata p => p
  | .schema p => p
  | .aiSession p _ => p
  | .intents p => p

/-- `redis.keys(f"project:{pid}:*")` over the whole keyspace. -/
def rKeysProject (s : Store) (pid : Str) : Except Unit (List RKey) :=
  if s.mode = .failing then .error ()
  else .ok (((s.kv.map Prod.fst) ++ (s.lists.map Prod.fst)).filter
    (fun k => rkeyPid k == pid))

/- TTL configuration and caps (context_manager.py:14-22). -/

def SCHEMA_TTL : Nat := 3600
def AI_CONTEXT_TTL : Nat := 604800
def QUERY_INTENTS_TTL : Nat := 2592000
def MAX_QUERY_INTENTS : Nat := 50
def MAX_AI_MESSAGES : Nat := 100
def MAX_AI_SESSIONS : Nat := 10

/-- `ContextManager._safe_operation` (context_manager.py:35-45): when the
backend is unavailable return the default without running the operation;
otherwise run it and catch any raised exception, again returning the
default. -/
def safeOp {α : Type} (s : Store) (dflt : α) (op : Except Unit (α × Store)) : α × Store :=
  if s.mode = .down then (dflt, s)
  else
    match op with
    | .ok r => r
    | .error _ => (dflt, s)

/-- `save_project_metadata` (context_manager.py:51-60).  The record's `id`
field is read (a `KeyError` on a missing field is caught by the wrapper);
ids are modelled as strings. -/
def save_project_metadata (s : Store) (project : Dict) : Bool × Store :=
  safeOp s false (do
    match aget project ("id".toList) with
    | some (DVal.str pid) => do
      let s ← rSet s (RKey.metadata pid) project
      pure (true, s)
    | _ => .error ())

/-- `get_project_metadata` (context_manager.py:62-71). -/
def get_project_metadata (s : Store) (pid : Str) : Option Dict × Store :=
  safeOp s none (do
    let o ← rGet s (RKey.metadata pid)
    pure (o, s))

/-- `update_project_metadata` (context_manager.py:73-83): merge semantics,
refreshing `updatedAt`; `false` when the project is absent. -/
def update_project_metadata (s : Store) (pid : Str) (updates : Dict) (now : Str) :
    Bool × Store :=
  safeOp s false (
    let (po, s1) := get_project_metadata s pid
    match po with
    | some project =>
      let project2 := aset (dmerge project updates) ("updatedAt".toList) (DVal.str now)
      .ok (save_project_metadata s1 project2)
    | none => .ok (false, s1))

def deleteKeys (s : Store) : List RKey → Except Unit Store
  | [] => .ok s
  | k :: ks => do
    let (_, s1) ← rDelete s k
    deleteKeys s1 ks

/-- `delete_project` (context_manager.py:85-98): remove every key under the
project's namespace. -/
def delete_project (s : Store) (pid : Str) : Bool × Store :=
  safeOp s false (do
    let ks ← rKeysProject s pid
    let s ← deleteKeys s ks
    pure (true, s))

def getEach (s : Store) : List RKey → Except Unit (List Dict)
  | [] => .ok []
  | k :: ks => do
    let o ← rGet s k
    let rest ← getEach s ks
    match o with
    | some d => pure (d :: rest)
    | none => pure rest

/-- `list_all_projects` (context_manager.py:100-114). -/
def list_all_projects (s : Store) : List Dict × Store :=
  safeOp s [] (do
    let ks ← rKeysMetadata s
    let vs ← getEach s ks
    pure (vs, s))

/-- `save_schema` (context_manager.py:120-132): stamp `lastSynced`,
overwrite unconditionally with the given TTL. -/
def save_schema (s : Store) (pid : Str) (schema : Dict) (ttl : Nat) (now : Str) :
    Bool × Store :=
  safeOp s false (do
    let data := aset schema ("lastSynced".toList) (DVal.str now)
    let s ← rSetex s (RKey.schema pid) ttl data
    pure (true, s))

/-- `get_schema` (context_manager.py:134-143). -/
def get_schema (s : Store) (pid : Str) : Option Dict × Store :=
  safeOp s none (do
    let o ← rGet s (RKey.schema pid)
    pure (o, s))

/-- `invalidate_schema` (context_manager.py:145-153). -/
def invalidate_schema (s : Store) (pid : Str) : Bool × Store :=
  safeOp s false (do
    let (_, s) ← rDelete s (RKey.schema pid)
    pure (true, s))

/-- `save_ai_message` (context_manager.py:159-188): load or initialize the
session, append the message, stamp `lastMessageAt`, trim to the most recent
`MAX_AI_MESSAGES`, re-persist with the 7-day TTL refreshed.  A malformed
stored session (non-dict, or `messages` not a list) raises in the source and
is caught by the wrapper, modelled by the error branches. -/
def save_ai_message (s : Store) (pid sid : Str) (message : Str) (now : Str) :
    Bool × Store :=
  safeOp s false (do
    let k := RKey.aiSession pid sid
    let o ← rGet s k
    let session : Dict ←
      match o with
      | none => pure [(("sessionId".toList), DVal.str sid),
                      (("messages".toList), DVal.strs []),
                      (("createdAt".toList), DVal.str now)]
      | some d => pure d
    let msgs ← match aget session ("messages".toList) with
      | some (DVal.strs ms) => pure ms
      | _ => .error ()
    let msgs := msgs ++ [message]
    let session := aset session ("messages".toList) (DVal.strs msgs)
    let session := aset session ("lastMessageAt".toList) (DVal.str now)
    let session :=
      if MAX_AI_MESSAGES < msgs.length then
        aset session ("messages".toList)
          (DVal.strs (msgs.drop (msgs.length - MAX_AI_MESSAGES)))
      else session
    let s ← rSetex s k AI_CONTEXT_TTL session
    pure (true, s))

/-- `get_ai_session` (context_manager.py:190-199). -/
def get_ai_session (s : Store) (pid sid : Str) : Option Dict × Store :=
  safeOp s none (do
    let o ← rGet s (RKey.aiSession pid sid)
    pure (o, s))

/-- The earlier `delete_ai_session` definition (context_manager.py:201-208),
shadowed by the later one in the class body: it reported whether a key was
actually removed. -/
def delete_ai_session_shadowed (s : Store) (pid sid : Str) : Bool × Store :=
  safeOp s false (do
    let (n, s) ← rDelete s (RKey.aiSession pid sid)
    pure (0 < n, s))

/-- The effective `delete_ai_session` (context_manager.py:233-241): the
second definition in the class body wins; it ignores the delete count and
returns `True`. -/
def delete_ai_session (s : Store) (pid sid : Str) : Bool × Store :=
  safeOp s false (do
    let (_, s) ← rDelete s (RKey.aiSession pid sid)
    pure (true, s))

/-- The metadata projection built per session by `list_ai_sessions`
(context_manager.py:222-227): session id, message count, creation and
last-message timestamps — no message bodies. -/
structure SessionMeta where
  sessionId : Str
  messageCount : Nat
  createdAt : Option DVal
  lastMessageAt : Option DVal
  deriving DecidableEq

/-- Build the projection from a stored session dict.  `session['sessionId']`
raises on a missing field and `len()` raises on a non-list `messages`
value; both are modelled as errors caught by the wrapper. -/
def metaOfSession (d : Dict) : Except Unit SessionMeta := do
  let sid ← match aget d ("sessionId".toList) with
    | some (DVal.str x) => pure x
    | _ => .error ()
  let cnt ← match aget d ("messages".toList) with
    | some (DVal.strs ms) => pure ms.length
    | none => pure 0
    | some _ => .error ()
  pure { sessionId := sid, messageCount := cnt,
         createdAt := aget d ("createdAt".toList),
         lastMessageAt := aget d ("lastMessageAt".toList) }

def collectSessionMetas (s : Store) : List RKey → Except Unit (List SessionMeta)
  | [] => .ok []
  | k :: ks => do
    let o ← rGet s k
    match o with
    | none => collectSessionMetas s ks
    | some d => do
      let m ← metaOfSession d
      let rest ← collectSessionMetas s ks
      pure (m :: rest)

/-- `list_ai_sessions` (context_manager.py:210-231): scan the project's
session keys (in the store's key-enumeration order), project each session to
metadata, and return `sessions[-MAX_AI_SESSIONS:]` — the last ten in that
enumeration order. -/
def list_ai_sessions (s : Store) (pid : Str) : List SessionMeta × Store :=
  safeOp s [] (do
    let ks ← rKeysAiSession s pid
    let ms ← collectSessionMetas s ks
    pure (ms.drop (ms.length - MAX_AI_SESSIONS), s))

/-- `save_query_intent` (context_manager.py:247-265): push to the front,
trim to the cap, and set the 30-day TTL only when `redis.ttl` reports the
key has no expiry. -/
def save_query_intent (s : Store) (pid : Str) (intent : Dict) : Bool × Store :=
  safeOp s false (do
    let k := RKey.intents pid
    let s ← rLpush s k intent
    let s ← rLtrim s k 0 ((MAX_QUERY_INTENTS : Int) - 1)
    let t ← rTtl s k
    let s ← if t = -1 then rExpire s k QUERY_INTENTS_TTL else pure s
    pure (true, s))

/-- `get_query_intents` (context_manager.py:267-275). -/
def get_query_intents (s : Store) (pid : Str) (limit : Nat) : List Dict × Store :=
  safeOp s [] (do
    let l ← rLrange s (RKey.intents pid) 0 ((limit : Int) - 1)
    pure (l, s))

/-- `clear_query_intents` (context_manager.py:277-285). -/
def clear_query_intents (s : Store) (pid : Str) : Bool × Store :=
  safeOp s false (do
    let (_, s) ← rDelete s (RKey.intents pid)
    pure (true, s))

/-- `get_project_stats` (context_manager.py:291-307): a composed read; when
the backend is down the error-tagged payload is the designated default. -/
def get_project_stats (s : Store) (pid : Str) (now : Str) : Dict × Store :=
  safeOp s
    [(("projectId".toList), DVal.str pid),
     (("error".toList), DVal.str ("Redis unavailable".toList))]
    (let (pm, s1) := get_project_metadata s pid
     let (sc, s2) := get_schema s1 pid
     let (ai, s3) := list_ai_sessions s2 pid
     let (qi, s4) := get_query_intents s3 pid MAX_QUERY_INTENTS
     .ok ([(("projectId".toList), DVal.str pid),
           (("hasMetadata".toList), DVal.jbool pm.isSome),
           (("hasSchema".toList), DVal.jbool sc.isSome),
           (("aiSessionCount".toList), DVal.num ai.length),
           (("queryIntentCount".toList), DVal.num qi.length),
           (("timestamp".toList), DVal.str now)], s4))

/-- `health_check` (context_manager.py:309-330): `unavailable` when the
availability probe fails; otherwise the `info()` introspection call, whose
failure yields an error-status payload.  Introspection fields of the healthy
payload are external data, elided here. -/
def health_check (s : Store) : Dict :=
  if s.mode = .down then
    [(("status".toList), DVal.str ("unavailable".toList)),
     (("message".toList), DVal.str ("Redis connection failed".toList))]
  else
    match rInfo s with
    | .ok _ => [(("status".toList), DVal.str ("healthy".toList))]
    | .error _ => [(("status".toList), DVal.str ("error".toList))]

def optStrD : Option Str → DVal
  | some x => DVal.str x
  | none => DVal.null

/-- Step 1 of the Query-Intent Recorder: the fixed-field intent record of
server.py:237-246. -/
def build_intent_record (query : Str) (execution_time_ms : Int) (was_successful : Bool)
    (error_msg : Option Str) (user_question : Option Str) (idv now : Str) : Dict :=
  [(("id".toList), DVal.str idv),
   (("sqlQuery".toList), DVal.str query),
   (("userQuestion".toList), optStrD user_question),
   (("executedAt".toList), DVal.str now),
   (("wasSuccessful".toList), DVal.jbool was_successful),
   (("errorMessage".toList), if was_successful then DVal.null else optStrD error_msg),
   (("tablesReferenced".toList), DVal.strs (extract_tables_from_query query)),
   (("executionTimeMs".toList), DVal.num execution_time_ms)]

/-- `save_query_intent_helper` (server.py:234-256), the Query-Intent
Recorder: build the fixed-field intent record, save it, and invalidate the
schema cache when a DDL statement succeeded.  `idv` and `now` stand for the
generated `uuid4` and `datetime.now()` values; `executionTimeMs` is carried
as an integer. -/
def save_query_intent_helper (s : Store) (pid query : Str) (execution_time_ms : Int)
    (was_successful : Bool) (error_msg : Option Str) (user_question : Option Str)
    (idv now : Str) : Store :=
  let intent : Dict :=
    build_intent_record query execution_time_ms was_successful error_msg user_question idv now
  let s1 := (save_query_intent s pid intent).2
  if was_successful && is_ddl_query query then (invalidate_schema s1 pid).2 else s1

/-- The `POST /api/context/intents/<project_id>` handler
(server.py:1956-1987): reject a payload without `sqlQuery` (`none` models
the 400 response), default `id`/`executedAt`, delete any `result`/`results`
fields, then store. -/
def save_query_intent_endpoint (s : Store) (pid : Str) (payload : Dict)
    (idv now : Str) : Option Bool × Store :=
  if (aget payload ("sqlQuery".toList)).isNone then (none, s)
  else
    let p := if (aget payload ("id".toList)).isNone
      then aset payload ("id".toList) (DVal.str idv) else payload
    let p := if (aget p ("executedAt".toList)).isNone
      then aset p ("executedAt".toList) (DVal.str now) else p
    let p := adel p ("result".toList)
    let p := adel p ("results".toList)
    let (ok, s) := save_query_intent s pid p
    (some ok, s)

/-- Passive expiry: `d` seconds elapse; keys whose remaining TTL is at most
`d` disappear (Redis expires them), the others have their TTL reduced.
Keys without a TTL entry persist. -/
def elapse (s : Store) (d : Nat) : Store :=
  { s with
    kv := s.kv.filter (fun kv => match aget s.ttls kv.1 with
      | some t => decide (d < t)
      | none => true),
    lists := s.lists.filter (fun kv => match aget s.ttls kv.1 with
      | some t => decide (d < t)
      | none => true),
    ttls := (s.ttls.filter (fun kt => d < kt.2)).map (fun kt => (kt.1, kt.2 - d)) }

theorem aget_aset_self {κ α : Type} [DecidableEq κ] (l : List (κ × α)) (k : κ) (v : α) :
    aget (aset l k v) k = some v := by
  induction l with
  | nil => simp [aset, aget]
  | cons hd t ih =>
    obtain ⟨k1, v1⟩ := hd
    by_cases hk : k1 = k
    · simp [aset, hk, aget]
    · simp [aset, hk, aget, ih]

theorem aget_aset_ne {κ α : Type} [DecidableEq κ] (l : List (κ × α)) (k q : κ) (v : α)
    (h : k ≠ q) : aget (aset l k v) q = aget l q := by
  induction l with
  | nil => simp [aset, aget, h]
  | cons hd t ih =>
    obtain ⟨k1, v1⟩ := hd
    by_cases hk : k1 = k
    · simp [aset, hk, aget, h]
    · by_cases hq : k1 = q
      · simp [aset, hk, aget, hq, Ne.symm h]
      · simp [aset, hk, aget, hq, ih]

theorem aset_aset {κ α : Type} [DecidableEq κ] (l : List (κ × α)) (k : κ) (v w : α) :
    aset (aset l k v) k w = aset l k w := by
  induction l with
  | nil => simp [aset]
  | cons hd t ih =>
    obtain ⟨k1, v1⟩ := hd
    by_cases hk : k1 = k
    · simp [aset, hk]
    · simp [aset, hk, ih]

theorem aget_adel_self {κ α : Type} [DecidableEq κ] (l : List (κ × α)) (k : κ) :
    aget (adel l k) k = none := by
  induction l with
  | nil => simp [adel, aget]
  | cons hd t ih =>
    obtain ⟨k1, v1⟩ := hd
    by_cases hk : k1 = k
    · simpa [adel, hk] using ih
    · simp [adel, hk, aget, ih]

theorem aget_adel_ne {κ α : Type} [DecidableEq κ] (l : List (κ × α)) (k q : κ)
    (h : k ≠ q) : aget (adel l k) q = aget l q := by
  induction l with
  | nil => simp [adel, aget]
  | cons hd t ih =>
    obtain ⟨k1, v1⟩ := hd
    by_cases hk : k1 = k
    · subst hk
      simp [adel, aget, h, ih]
    · by_cases hq : k1 = q
      · simp [adel, hk, aget, hq, Ne.symm h]
      · simp [adel, hk, aget, hq, ih]

theorem sliceIdx_zero {α : Type} (l : List α) (m : Nat) :
    sliceIdx l 0 (m : Int) = l.take (m + 1) := by
  have hm : ¬ ((m : Int) < 0) := by omega
  have h4 : ((m : Int) - 0 + 1).toNat = m + 1 := by omega
  simp [sliceIdx, hm, h4]

theorem sliceIdx_take_50 {α : Type} (l : List α) :
    sliceIdx l 0 (49 : Int) = l.take 50 := by
  have h : (49 : Int) = ((49 : Nat) : Int) := by norm_num
  rw [h, sliceIdx_zero]

theorem except_bind_ok {ε α β : Type} (a : α) (f : α → Except ε β) :
    (Except.ok a : Except ε α) >>= f = f a := rfl

theorem except_bind_err {ε α β : Type} (e : ε) (f : α → Except ε β) :
    (Except.error e : Except ε α) >>= f = Except.error e := rfl

theorem except_map_ok {ε α β : Type} (g : α → β) (a : α) :
    (g <$> (Except.ok a : Except ε α)) = Except.ok (g a) := rfl

theorem except_map_err {ε α β : Type} (g : α → β) (e : ε) :
    (g <$> (Except.error e : Except ε α)) = Except.error e := rfl

theorem except_pure_eq {ε α : Type} (a : α) :
    (pure a : Except ε α) = Except.ok a := rfl

/-- Evaluation of `save_query_intent` on a working store: the result is
`True`, the intents list becomes the pushed-and-trimmed list, and the TTL is
set exactly when the key had none. -/
theorem save_query_intent_eval (s : Store) (pid : Str) (i : Dict) (h : s.mode = .ok) :
    save_query_intent s pid i =
      (true,
       { s with
         lists := aset s.lists (RKey.intents pid)
           ((i :: ((aget s.lists (RKey.intents pid)).getD [])).take 50),
         ttls := match aget s.ttls (RKey.intents pid) with
           | some _ => s.ttls
           | none => aset s.ttls (RKey.intents pid) QUERY_INTENTS_TTL }) := by
  obtain ⟨m, kv, ls, ts⟩ := s
  cases h
  cases hts : aget ts (RKey.intents pid) with
  | none =>
    simp [save_query_intent, safeOp, rLpush, rLtrim, rTtl, rExpire, keyExists,
      MAX_QUERY_INTENTS, aget_aset_self, aset_aset, sliceIdx_take_50, hts,
      except_bind_ok, except_bind_err, except_map_ok, except_map_err, except_pure_eq,
      List.take_succ_cons]
  | some t =>
    have hne : ((t : Nat) : Int) ≠ -1 := by omega
    simp [save_query_intent, safeOp, rLpush, rLtrim, rTtl, rExpire, keyExists,
      MAX_QUERY_INTENTS, aget_aset_self, aset_aset, sliceIdx_take_50, hts, hne,
      except_bind_ok, except_bind_err, except_map_ok, except_map_err, except_pure_eq,
      List.take_succ_cons]

theorem get_schema_eval (s : Store) (pid : Str) (h : s.mode = .ok) :
    get_schema s pid = (aget s.kv (RKey.schema pid), s) := by
  obtain ⟨m, kv, ls, ts⟩ := s
  cases h
  simp [get_schema, safeOp, rGet, except_bind_ok, except_pure_eq]

theorem invalidate_schema_eval (s : Store) (pid : Str) (h : s.mode = .ok) :
    invalidate_schema s pid =
      (true, { s with kv := adel s.kv (RKey.schema pid),
                      lists := adel s.lists (RKey.schema pid),
                      ttls := adel s.ttls (RKey.schema pid) }) := by
  obtain ⟨m, kv, ls, ts⟩ := s
  cases h
  simp [invalidate_schema, safeOp, rDelete, keyExists, except_bind_ok, except_pure_eq]

theorem get_query_intents_eval (s : Store) (pid : Str) (h : s.mode = .ok) :
    get_query_intents s pid 50 =
      (((aget s.lists (RKey.intents pid)).getD []).take 50, s) := by
  obtain ⟨m, kv, ls, ts⟩ := s
  cases h
  simp [get_query_intents, safeOp, rLrange, sliceIdx_take_50, except_bind_ok, except_pure_eq]

theorem save_query_intent_kv_mode (s : Store) (pid : Str) (i : Dict) (h : s.mode = .ok) :
    (save_query_intent s pid i).2.kv = s.kv ∧ (save_query_intent s pid i).2.mode = .ok := by
  rw [save_query_intent_eval s pid i h]
  exact ⟨rfl, h⟩

/-- C5: after `RecordOutcome` runs for a successful statement classified as
DDL, `GetSchema` for that project misses — even if a schema was cached just
before; for unsuccessful or non-DDL statements the cached schema is left
unchanged. -/
theorem recordOutcome_ddl_invalidates_schema (s : Store) (pid q : Str) (dur : Int)
    (ok : Bool) (em uq : Option Str) (idv now : Str) (hok : s.mode = .ok) :
    (ok = true → is_ddl_query q = true →
      (get_schema (save_query_intent_helper s pid q dur ok em uq idv now) pid).1 = none) ∧
    (ok = false ∨ is_ddl_query q = false →
      (get_schema (save_query_intent_helper s pid q dur ok em uq idv now) pid).1
        = (get_schema s pid).1) := by
  constructor
  · intro h1 h2
    subst h1
    obtain ⟨hkv, hmode⟩ :=
      save_query_intent_kv_mode s pid (build_intent_record q dur true em uq idv now) hok
    have hif : save_query_intent_helper s pid q dur true em uq idv now
        = (invalidate_schema (save_query_intent s pid
            (build_intent_record q dur true em uq idv now)).2 pid).2 := by
      simp [save_query_intent_helper, h2]
    rw [hif, invalidate_schema_eval _ pid hmode, get_schema_eval _ pid (by exact hmode)]
    simp [aget_adel_self]
  · intro h12
    obtain ⟨hkv, hmode⟩ :=
      save_query_intent_kv_mode s pid (build_intent_record q dur ok em uq idv now) hok
    have hcond : (ok && is_ddl_query q) = false := by
      rcases h12 with h | h <;> simp [h]
    have hif : save_query_intent_helper s pid q dur ok em uq idv now
        = (save_query_intent s pid (build_intent_record q dur ok em uq idv now)).2 := by
      simp [save_query_intent_helper, hcond]
    rw [hif, get_schema_eval _ pid hmode, get_schema_eval s pid hok]
    simp [hkv]

/-- Witness for C5: a store with a cached schema; `DROP TABLE x` succeeds
and the cache then misses, while `SELECT 1` leaves it untouched. -/
theorem recordOutcome_ddl_invalidates_schema_witness :
    (get_schema (save_query_intent_helper
        (⟨.ok, [(RKey.schema ("p".toList), [])], [], []⟩ : Store)
        ("p".toList) ("DROP TABLE x".toList) 5 true none none ("i".toList) ("t".toList))
      ("p".toList)).1 = none ∧
    (get_schema (save_query_intent_helper
        (⟨.ok, [(RKey.schema ("p".toList), [])], [], []⟩ : Store)
        ("p".toList) ("SELECT 1".toList) 5 true none none ("i".toList) ("t".toList))
      ("p".toList)).1
      = (get_schema (⟨.ok, [(RKey.schema ("p".toList), [])], [], []⟩ : Store) ("p".toList)).1 :=
  ⟨(recordOutcome_ddl_invalidates_schema _ _ _ 5 true none none _ _ rfl).1 rfl (by decide),
   (recordOutcome_ddl_invalidates_schema _ _ _ 5 true none none _ _ rfl).2
     (Or.inr (by decide))⟩

/-- N sequential `SaveQueryIntent` calls, in order. -/
def saveIntentsSeq : Store → Str → List Dict → Store
  | s, _, [] => s
  | s, pid, x :: xs => saveIntentsSeq (save_query_intent s pid x).2 pid xs

theorem saveIntentsSeq_mode (pid : Str) :
    ∀ (xs : List Dict) (s : Store), s.mode = .ok → (saveIntentsSeq s pid xs).mode = .ok := by
  intro xs
  induction xs with
  | nil => intro s h; exact h
  | cons x xs ih =>
    intro s h
    exact ih _ ((save_query_intent_kv_mode s pid x h).2)

theorem take_append_take {α : Type} (a b : List α) (n : Nat) :
    (a ++ b.take n).take n = (a ++ b).take n := by
  have h : min (n - a.length) n = n - a.length := Nat.min_eq_left (Nat.sub_le _ _)
  simp [List.take_append_eq_append_take, List.take_take, h]

theorem saveIntentsSeq_intents (pid : Str) :
    ∀ (xs : List Dict) (s : Store), s.mode = .ok → xs ≠ [] →
      aget (saveIntentsSeq s pid xs).lists (RKey.intents pid)
        = some ((xs.reverse ++ ((aget s.lists (RKey.intents pid)).getD [])).take 50) := by
  intro xs
  induction xs with
  | nil => intro s _ hne; exact absurd rfl hne
  | cons x xs ih =>
    intro s h _
    have heval := save_query_intent_eval s pid x h
    have hmode := (save_query_intent_kv_mode s pid x h).2
    have hcur : (aget (save_query_intent s pid x).2.lists (RKey.intents pid)).getD []
        = (x :: ((aget s.lists (RKey.intents pid)).getD [])).take 50 := by
      rw [heval]
      simp [aget_aset_self]
    show aget (saveIntentsSeq (save_query_intent s pid x).2 pid xs).lists (RKey.intents pid)
        = _
    by_cases hxs : xs = []
    · subst hxs
      simp only [saveIntentsSeq]
      rw [heval]
      simp [aget_aset_self]
    · rw [ih _ hmode hxs, hcur, take_append_take]
      congr 2
      simp [List.append_assoc]

/-- C6: after more than 50 sequential `SaveQueryIntent` calls for one
project, `GetQueryIntents` returns exactly 50 records, most-recent first,
and they are exactly the last 50 intents saved. -/
theorem get_query_intents_cap (s : Store) (pid : Str) (xs : List Dict)
    (hok : s.mode = .ok) (hlen : 50 < xs.length) :
    (get_query_intents (saveIntentsSeq s pid xs) pid 50).1 = xs.reverse.take 50 ∧
    ((get_query_intents (saveIntentsSeq s pid xs) pid 50).1).length = 50 := by
  have hne : xs ≠ [] := by
    intro h
    subst h
    simp at hlen
  have hmode := saveIntentsSeq_mode pid xs s hok
  have hint := saveIntentsSeq_intents pid xs s hok hne
  have h50 : 50 ≤ xs.reverse.length := by simpa using Nat.le_of_lt hlen
  rw [get_query_intents_eval _ pid hmode]
  have hmain : (((aget (saveIntentsSeq s pid xs).lists (RKey.intents pid)).getD []).take 50)
      = xs.reverse.take 50 := by
    rw [hint]
    simp only [Option.getD_some]
    rw [List.take_take]
    simp only [Nat.min_self]
    rw [List.take_append_of_le_length h50]
  refine ⟨hmain, ?_⟩
  show ((((aget (saveIntentsSeq s pid xs).lists (RKey.intents pid)).getD []).take 50)).length
      = 50
  rw [hmain, List.length_take]
  omega

/-- 51 distinct intent records, for the C6 witness. -/
def fiftyOneIntents : List Dict :=
  (List.range 51).map (fun i => [(("id".toList), DVal.num i)])

/-- Witness for C6 with 51 sequential saves on an empty store. -/
theorem get_query_intents_cap_witness :
    (get_query_intents (saveIntentsSeq ⟨.ok, [], [], []⟩ ("p".toList) fiftyOneIntents)
        ("p".toList) 50).1 = fiftyOneIntents.reverse.take 50 ∧
    ((get_query_intents (saveIntentsSeq ⟨.ok, [], [], []⟩ ("p".toList) fiftyOneIntents)
        ("p".toList) 50).1).length = 50 :=
  get_query_intents_cap _ _ _ rfl (by decide)

theorem aget_elapse_ttls (l : List (RKey × Nat)) (k : RKey) (t d : Nat)
    (h : aget l k = some t) (hd : d < t) :
    aget ((l.filter (fun kt => d < kt.2)).map (fun kt => (kt.1, kt.2 - d))) k
      = some (t - d) := by
  induction l with
  | nil => simp [aget] at h
  | cons hd1 tl ih =>
    obtain ⟨k1, t1⟩ := hd1
    by_cases hk : k1 = k
    · subst hk
      simp only [aget, if_pos rfl] at h
      obtain rfl : t1 = t := by injection h
      simp [List.filter, hd, aget]
    · simp only [aget, if_neg hk] at h
      by_cases hkeep : d < t1
      · simp [List.filter, hkeep, aget, hk, ih h]
      · simp [List.filter, hkeep, ih h]

/-- C7: `SaveQueryIntent` sets the 30-day TTL only when the intents key has
no TTL: the first write establishes the expiry, a later write leaves an
existing TTL untouched, and after `d` seconds a second save still shows the
original TTL diminished by `d`, not reset. -/
theorem save_query_intent_ttl_once (s : Store) (pid : Str) (v w : Dict) (d : Nat)
    (hok : s.mode = .ok) :
    (aget s.ttls (RKey.intents pid) = none →
      aget (save_query_intent s pid v).2.ttls (RKey.intents pid)
        = some QUERY_INTENTS_TTL) ∧
    (∀ t, aget s.ttls (RKey.intents pid) = some t →
      (save_query_intent s pid v).2.ttls = s.ttls) ∧
    (aget s.ttls (RKey.intents pid) = none → 0 < d → d < QUERY_INTENTS_TTL →
      aget (save_query_intent (elapse (save_query_intent s pid v).2 d) pid w).2.ttls
        (RKey.intents pid) = some (QUERY_INTENTS_TTL - d)) := by
  refine ⟨?_, ?_, ?_⟩
  · intro hn
    rw [save_query_intent_eval s pid v hok]
    simp [hn, aget_aset_self]
  · intro t ht
    rw [save_query_intent_eval s pid v hok]
    simp [ht]
  · intro hn hd1 hd2
    have h1 : aget (save_query_intent s pid v).2.ttls (RKey.intents pid)
        = some QUERY_INTENTS_TTL := by
      rw [save_query_intent_eval s pid v hok]
      simp [hn, aget_aset_self]
    have hm1 : (save_query_intent s pid v).2.mode = .ok :=
      (save_query_intent_kv_mode s pid v hok).2
    have hm2 : (elapse (save_query_intent s pid v).2 d).mode = .ok := hm1
    have h2 : aget (elapse (save_query_intent s pid v).2 d).ttls (RKey.intents pid)
        = some (QUERY_INTENTS_TTL - d) := by
      simp only [elapse]
      exact aget_elapse_ttls _ _ _ _ h1 hd2
    rw [save_query_intent_eval _ pid w hm2]
    simp [h2]

/-- Witness for C7 on an empty store, `d = 100` seconds. -/
theorem save_query_intent_ttl_once_witness :
    (aget (⟨.ok, [], [], []⟩ : Store).ttls (RKey.intents ("p".toList)) = none →
      aget (save_query_intent ⟨.ok, [], [], []⟩ ("p".toList) []).2.ttls
        (RKey.intents ("p".toList)) = some QUERY_INTENTS_TTL) ∧
    (∀ t, aget (⟨.ok, [], [], []⟩ : Store).ttls (RKey.intents ("p".toList)) = some t →
      (save_query_intent ⟨.ok, [], [], []⟩ ("p".toList) []).2.ttls
        = (⟨.ok, [], [], []⟩ : Store).ttls) ∧
    (aget (⟨.ok, [], [], []⟩ : Store).ttls (RKey.intents ("p".toList)) = none →
      0 < 100 → 100 < QUERY_INTENTS_TTL →
      aget (save_query_intent
          (elapse (save_query_intent ⟨.ok, [], [], []⟩ ("p".toList) []).2 100)
          ("p".toList) []).2.ttls (RKey.intents ("p".toList))
        = some (QUERY_INTENTS_TTL - 100)) :=
  save_query_intent_ttl_once ⟨.ok, [], [], []⟩ ("p".toList) [] [] 100 rfl

/-- C10: with the store available and no call raising, the effective
`delete_ai_session` (the later of the two definitions in the class body)
returns `True` whether or not the session exists — deleting a missing
session is indistinguishable from deleting a real one — whereas the earlier,
shadowed definition would have returned `False` for a missing session. -/
theorem delete_ai_session_ignores_existence (s : Store) (pid sid : Str)
    (hok : s.mode = .ok) :
    (delete_ai_session s pid sid).1 = true ∧
    ((aget s.kv (RKey.aiSession pid sid) = none ∧
        aget s.lists (RKey.aiSession pid sid) = none) →
      (delete_ai_session_shadowed s pid sid).1 = false) := by
  obtain ⟨m, kv, ls, ts⟩ := s
  cases hok
  constructor
  · simp [delete_ai_session, safeOp, rDelete, keyExists,
      except_bind_ok, except_pure_eq]
  · rintro ⟨h1, h2⟩
    simp only [Store.kv] at h1
    simp only [Store.lists] at h2
    simp [delete_ai_session_shadowed, safeOp, rDelete, keyExists, h1, h2,
      except_bind_ok, except_pure_eq]

/-- Witness for C10: the empty store holds no session `x`, yet deletion
reports success while the shadowed definition would report failure. -/
theorem delete_ai_session_ignores_existence_witness :
    (delete_ai_session ⟨.ok, [], [], []⟩ ("p".toList) ("x".toList)).1 = true ∧
    ((aget ([] : List (RKey × Dict)) (RKey.aiSession ("p".toList) ("x".toList)) = none ∧
        aget ([] : List (RKey × List Dict)) (RKey.aiSession ("p".toList) ("x".toList))
          = none) →
      (delete_ai_session_shadowed ⟨.ok, [], [], []⟩ ("p".toList) ("x".toList)).1 = false) :=
  delete_ai_session_ignores_existence ⟨.ok, [], [], []⟩ ("p".toList) ("x".toList) rfl

/-- C4: when the backend is unavailable (`down`) or every underlying store
call raises (`failing`), each Context Store public method returns its
documented safe default — `false` for writes/deletes, `none` for single
reads, the empty list for list reads, the error-tagged payload for the
composed stats read — and no exception escapes; `health_check` reports an
`unavailable` status payload when the backend is down (and an `error`
payload, still without crashing, when calls raise). -/
theorem context_store_graceful_degradation (s : Store)
    (pid sid now msg : Str) (project updates schema intent : Dict)
    (ttl limit : Nat) (hdeg : s.mode ≠ .ok) :
    (save_project_metadata s project).1 = false ∧
    (get_project_metadata s pid).1 = none ∧
    (update_project_metadata s pid updates now).1 = false ∧
    (delete_project s pid).1 = false ∧
    (list_all_projects s).1 = [] ∧
    (save_schema s pid schema ttl now).1 = false ∧
    (get_schema s pid).1 = none ∧
    (invalidate_schema s pid).1 = false ∧
    (save_ai_message s pid sid msg now).1 = false ∧
    (get_ai_session s pid sid).1 = none ∧
    (delete_ai_session s pid sid).1 = false ∧
    (list_ai_sessions s pid).1 = [] ∧
    (save_query_intent s pid intent).1 = false ∧
    (get_query_intents s pid limit).1 = [] ∧
    (clear_query_intents s pid).1 = false ∧
    (s.mode = .down →
      (get_project_stats s pid now).1 =
        [(("projectId".toList), DVal.str pid),
         (("error".toList), DVal.str ("Redis unavailable".toList))]) ∧
    (s.mode = .down →
      aget (health_check s) ("status".toList)
        = some (DVal.str ("unavailable".toList))) ∧
    (s.mode = .failing →
      aget (health_check s) ("status".toList) = some (DVal.str ("error".toList))) := by
  obtain ⟨m, kv, ls, ts⟩ := s
  cases m with
  | ok => exact absurd rfl hdeg
  | down =>
    simp [save_project_metadata, get_project_metadata, update_project_metadata,
      delete_project, list_all_projects, save_schema, get_schema, invalidate_schema,
      save_ai_message, get_ai_session, delete_ai_session, list_ai_sessions,
      save_query_intent, get_query_intents, clear_query_intents, get_project_stats,
      health_check, safeOp, aget]
  | failing =>
    constructor
    · simp only [save_project_metadata]
      rcases aget project ("id".toList) with _ | v
      · simp [safeOp, except_bind_ok, except_bind_err, except_pure_eq]
      · cases v <;>
          simp [safeOp, rSet, except_bind_ok, except_bind_err, except_pure_eq]
    · simp [get_project_metadata, update_project_metadata, delete_project,
        list_all_projects, save_schema, get_schema, invalidate_schema,
        save_ai_message, get_ai_session, delete_ai_session, list_ai_sessions,
        save_query_intent, get_query_intents, clear_query_intents, get_project_stats,
        health_check, safeOp, rGet, rSet, rSetex, rDelete, rLpush, rLtrim, rLrange,
        rTtl, rExpire, rInfo, rKeysMetadata, rKeysAiSession, rKeysProject, aget,
        except_bind_ok, except_bind_err, except_map_ok, except_map_err, except_pure_eq]

/-- Witness for C4 at a store whose backend is down. -/
theorem context_store_graceful_degradation_witness :
    (save_project_metadata ⟨.down, [], [], []⟩ []).1 = false ∧
    (get_project_metadata ⟨.down, [], [], []⟩ ("p".toList)).1 = none ∧
    (update_project_metadata ⟨.down, [], [], []⟩ ("p".toList) [] ("t".toList)).1 = false ∧
    (delete_project ⟨.down, [], [], []⟩ ("p".toList)).1 = false ∧
    (list_all_projects ⟨.down, [], [], []⟩).1 = [] ∧
    (save_schema ⟨.down, [], [], []⟩ ("p".toList) [] 3600 ("t".toList)).1 = false ∧
    (get_schema ⟨.down, [], [], []⟩ ("p".toList)).1 = none ∧
    (invalidate_schema ⟨.down, [], [], []⟩ ("p".toList)).1 = false ∧
    (save_ai_message ⟨.down, [], [], []⟩ ("p".toList) ("x".toList) ("m".toList)
      ("t".toList)).1 = false ∧
    (get_ai_session ⟨.down, [], [], []⟩ ("p".toList) ("x".toList)).1 = none ∧
    (delete_ai_session ⟨.down, [], [], []⟩ ("p".toList) ("x".toList)).1 = false ∧
    (list_ai_sessions ⟨.down, [], [], []⟩ ("p".toList)).1 = [] ∧
    (save_query_intent ⟨.down, [], [], []⟩ ("p".toList) []).1 = false ∧
    (get_query_intents ⟨.down, [], [], []⟩ ("p".toList) 50).1 = [] ∧
    (clear_query_intents ⟨.down, [], [], []⟩ ("p".toList)).1 = false ∧
    ((⟨.down, [], [], []⟩ : Store).mode = .down →
      (get_project_stats ⟨.down, [], [], []⟩ ("p".toList) ("t".toList)).1 =
        [(("projectId".toList), DVal.str ("p".toList)),
         (("error".toList), DVal.str ("Redis unavailable".toList))]) ∧
    ((⟨.down, [], [], []⟩ : Store).mode = .down →
      aget (health_check ⟨.down, [], [], []⟩) ("status".toList)
        = some (DVal.str ("unavailable".toList))) ∧
    ((⟨.down, [], [], []⟩ : Store).mode = .failing →
      aget (health_check ⟨.down, [], [], []⟩) ("status".toList)
        = some (DVal.str ("error".toList))) :=
  context_store_graceful_degradation ⟨.down, [], [], []⟩ ("p".toList) ("x".toList)
    ("t".toList) ("m".toList) [] [] [] [] 3600 50 (by decide)

theorem aget_eq_none_of_not_mem {κ α : Type} [DecidableEq κ] (l : List (κ × α)) (k : κ)
    (h : k ∉ l.map Prod.fst) : aget l k = none := by
  induction l with
  | nil => rfl
  | cons hd t ih =>
    obtain ⟨k1, v1⟩ := hd
    simp only [List.map_cons, List.mem_cons] at h
    push_neg at h
    simp [aget, Ne.symm h.1, ih h.2]

/-- C3: query-intent records that reach storage never contain result rows:
the POST endpoint removes any caller-supplied `result`/`results` fields
before storing, and records built by the Query-Intent Recorder carry exactly
the fixed metadata fields (id, SQL text, user question, timestamp, success
flag, error message, referenced tables, duration). -/
theorem query_intent_no_results (s : Store) (pid : Str) (payload : Dict)
    (q : Str) (dur : Int) (ok : Bool) (em uq : Option Str) (idv now : Str)
    (hok : s.mode = .ok) (hsql : (aget payload ("sqlQuery".toList)).isSome) :
    (∃ stored rest,
      aget (save_query_intent_endpoint s pid payload idv now).2.lists
        (RKey.intents pid) = some (stored :: rest) ∧
      aget stored ("result".toList) = none ∧
      aget stored ("results".toList) = none) ∧
    (∃ stored rest,
      aget (save_query_intent_helper s pid q dur ok em uq idv now).lists
        (RKey.intents pid) = some (stored :: rest) ∧
      stored.map Prod.fst =
        [("id".toList), ("sqlQuery".toList), ("userQuestion".toList),
         ("executedAt".toList), ("wasSuccessful".toList), ("errorMessage".toList),
         ("tablesReferenced".toList), ("executionTimeMs".toList)] ∧
      aget stored ("result".toList) = none ∧
      aget stored ("results".toList) = none) := by
  constructor
  · obtain ⟨v, hv⟩ := Option.isSome_iff_exists.mp hsql
    simp only [save_query_intent_endpoint, hv, Option.isNone_some, Bool.false_eq_true,
      if_false]
    rw [save_query_intent_eval _ _ _ hok]
    simp only [aget_aset_self, List.take_succ_cons]
    refine ⟨_, _, rfl, ?_, ?_⟩
    · rw [aget_adel_ne _ _ _ (by decide), aget_adel_self]
    · rw [aget_adel_self]
  · obtain ⟨hkv, hmode⟩ := save_query_intent_kv_mode s pid
      (build_intent_record q dur ok em uq idv now) hok
    have hlist : aget (save_query_intent_helper s pid q dur ok em uq idv now).lists
        (RKey.intents pid)
        = aget (save_query_intent s pid
            (build_intent_record q dur ok em uq idv now)).2.lists (RKey.intents pid) := by
      simp only [save_query_intent_helper]
      by_cases hc : (ok && is_ddl_query q) = true
      · rw [if_pos hc, invalidate_schema_eval _ pid hmode]
        exact aget_adel_ne _ _ _ (by simp)
      · rw [if_neg hc]
    rw [hlist, save_query_intent_eval _ _ _ hok]
    simp only [aget_aset_self, List.take_succ_cons]
    exact ⟨_, _, rfl, rfl, rfl, rfl⟩

/-- Witness for C3: a payload carrying a `results` field is stored without
it, and a recorder-built record has exactly the fixed fields. -/
theorem query_intent_no_results_witness :
    (∃ stored rest,
      aget (save_query_intent_endpoint ⟨.ok, [], [], []⟩ ("p".toList)
          [(("sqlQuery".toList), DVal.str ("SELECT 1".toList)),
           (("results".toList), DVal.strs [("row1".toList)])]
          ("i".toList) ("t".toList)).2.lists
        (RKey.intents ("p".toList)) = some (stored :: rest) ∧
      aget stored ("result".toList) = none ∧
      aget stored ("results".toList) = none) ∧
    (∃ stored rest,
      aget (save_query_intent_helper ⟨.ok, [], [], []⟩ ("p".toList)
          ("SELECT 1".toList) 5 true none none ("i".toList) ("t".toList)).lists
        (RKey.intents ("p".toList)) = some (stored :: rest) ∧
      stored.map Prod.fst =
        [("id".toList), ("sqlQuery".toList), ("userQuestion".toList),
         ("executedAt".toList), ("wasSuccessful".toList), ("errorMessage".toList),
         ("tablesReferenced".toList), ("executionTimeMs".toList)] ∧
      aget stored ("result".toList) = none ∧
      aget stored ("results".toList) = none) :=
  query_intent_no_results ⟨.ok, [], [], []⟩ ("p".toList)
    [(("sqlQuery".toList), DVal.str ("SELECT 1".toList)),
     (("results".toList), DVal.strs [("row1".toList)])]
    ("SELECT 1".toList) 5 true none none ("i".toList) ("t".toList) rfl (by decide)

/-- Eleven AI sessions created in order `s01..s11`, then a new message for
`s01`, which makes `s01` the most recently active session. -/
def listSessionsDemoStore : Store :=
  ([("s01", "t01"), ("s02", "t02"), ("s03", "t03"), ("s04", "t04"), ("s05", "t05"),
    ("s06", "t06"), ("s07", "t07"), ("s08", "t08"), ("s09", "t09"), ("s10", "t10"),
    ("s11", "t11"), ("s01", "t12")] : List (String × String)).foldl
    (fun st p => (save_ai_message st ("p".toList) (p.1.toList) ("m".toList)
      (p.2.toList)).2)
    ⟨.ok, [], [], []⟩

/-- C9 counterexample: with 11 sessions stored, `list_ai_sessions` returns
the last ten keys in enumeration (first-creation) order — `s02..s11` — and
omits `s01`, even though `s01` has the latest `lastMessageAt` (`t12`) and is
therefore the most recent session; the returned entries all carry earlier
timestamps.  The result is thus not the ten most recent sessions ordered by
recency. -/
theorem list_ai_sessions_recency_counterexample :
    (aiSessionKeys listSessionsDemoStore ("p".toList)).length = 11 ∧
    ((list_ai_sessions listSessionsDemoStore ("p".toList)).1).map SessionMeta.sessionId
      = [("s02".toList), ("s03".toList), ("s04".toList), ("s05".toList), ("s06".toList),
         ("s07".toList), ("s08".toList), ("s09".toList), ("s10".toList), ("s11".toList)] ∧
    ((get_ai_session listSessionsDemoStore ("p".toList) ("s01".toList)).1.bind
        (fun d => aget d ("lastMessageAt".toList))) = some (DVal.str ("t12".toList)) ∧
    ((list_ai_sessions listSessionsDemoStore ("p".toList)).1).map
        SessionMeta.lastMessageAt
      = [some (DVal.str ("t02".toList)), some (DVal.str ("t03".toList)),
         some (DVal.str ("t04".toList)), some (DVal.str ("t05".toList)),
         some (DVal.str ("t06".toList)), some (DVal.str ("t07".toList)),
         some (DVal.str ("t08".toList)), some (DVal.str ("t09".toList)),
         some (DVal.str ("t10".toList)), some (DVal.str ("t11".toList))] ∧
    ("s01".toList) ∉ ((list_ai_sessions listSessionsDemoStore ("p".toList)).1).map
        SessionMeta.sessionId :=
  ⟨by decide, by decide, by decide, by decide, by decide⟩

theorem rGet_ok_aget (s : Store) (k : RKey) (o : Option Dict) (h : rGet s k = .ok o) :
    aget s.kv k = o := by
  unfold rGet at h
  split at h
  · simp at h
  · exact Except.ok.inj h

theorem collectSessionMetas_mem (s : Store) :
    ∀ (ks : List RKey) (ms : List SessionMeta), collectSessionMetas s ks = .ok ms →
      ∀ m ∈ ms, ∃ k, k ∈ ks ∧ ∃ d, aget s.kv k = some d ∧ metaOfSession d = .ok m := by
  intro ks
  induction ks with
  | nil =>
    intro ms h m hm
    simp only [collectSessionMetas] at h
    obtain rfl : ([] : List SessionMeta) = ms := Except.ok.inj h
    simp at hm
  | cons k ks ih =>
    intro ms h m hm
    simp only [collectSessionMetas] at h
    cases hg : rGet s k with
    | error e =>
      rw [hg, except_bind_err] at h
      simp at h
    | ok o =>
      rw [hg, except_bind_ok] at h
      split at h
      next =>
        obtain ⟨k', hk', hd⟩ := ih ms h m hm
        exact ⟨k', List.mem_cons_of_mem _ hk', hd⟩
      next d =>
        cases hmo : metaOfSession d with
        | error e =>
          rw [hmo, except_bind_err] at h
          simp at h
        | ok m0 =>
          rw [hmo, except_bind_ok] at h
          cases hr : collectSessionMetas s ks with
          | error e =>
            rw [hr, except_bind_err] at h
            simp at h
          | ok rest =>
            rw [hr, except_bind_ok, except_pure_eq] at h
            obtain rfl : m0 :: rest = ms := Except.ok.inj h
            rcases List.mem_cons.mp hm with rfl | hm'
            · exact ⟨k, List.mem_cons_self _ _, d, rGet_ok_aget s k _ hg, hmo⟩
            · obtain ⟨k', hk', hd⟩ := ih rest hr m hm'
              exact ⟨k', List.mem_cons_of_mem _ hk', hd⟩

theorem aiSessionKeys_shape (s : Store) (pid : Str) (k : RKey)
    (h : k ∈ aiSessionKeys s pid) : ∃ sid, k = RKey.aiSession pid sid := by
  simp only [aiSessionKeys, List.mem_filter] at h
  obtain ⟨_, hmatch⟩ := h
  cases k with
  | aiSession p sd =>
    have hp : p = pid := by simpa using hmatch
    exact ⟨sd, by rw [hp]⟩
  | metadata p => simp at hmatch
  | schema p => simp at hmatch
  | intents p => simp at hmatch

theorem list_ai_sessions_eval (s : Store) (pid : Str) (hok : s.mode = .ok) :
    (list_ai_sessions s pid).1 =
      match collectSessionMetas s (aiSessionKeys s pid) with
      | .ok ms => ms.drop (ms.length - MAX_AI_SESSIONS)
      | .error _ => [] := by
  obtain ⟨mo, kv, ls, ts⟩ := s
  cases hok
  cases hcol : collectSessionMetas ⟨.ok, kv, ls, ts⟩
      (aiSessionKeys ⟨.ok, kv, ls, ts⟩ pid) with
  | ok ms =>
    simp [list_ai_sessions, safeOp, rKeysAiSession, hcol,
      except_bind_ok, except_bind_err, except_pure_eq]
  | error e =>
    simp [list_ai_sessions, safeOp, rKeysAiSession, hcol,
      except_bind_ok, except_bind_err, except_pure_eq]

/-- C9 amended: `list_ai_sessions` returns only metadata projections
(session id, message count, creation and last-message timestamps — no
message bodies, by the shape of `SessionMeta`), at most ten of them, each
the projection of a session stored under the project; the ten kept are the
last ten in key-enumeration order, which need not be the ten most recent by
recency (see the counterexample). -/
theorem list_ai_sessions_projection (s : Store) (pid : Str) (hok : s.mode = .ok) :
    ((list_ai_sessions s pid).1).length ≤ MAX_AI_SESSIONS ∧
    ∀ m ∈ (list_ai_sessions s pid).1, ∃ sid d,
      aget s.kv (RKey.aiSession pid sid) = some d ∧ metaOfSession d = .ok m := by
  rw [list_ai_sessions_eval s pid hok]
  cases hcol : collectSessionMetas s (aiSessionKeys s pid) with
  | error e => simp
  | ok ms =>
    constructor
    · simp only [List.length_drop]
      omega
    · intro m hm
      have hm' : m ∈ ms := List.drop_subset _ _ hm
      obtain ⟨k, hk, d, hd, hmo⟩ := collectSessionMetas_mem s _ ms hcol m hm'
      obtain ⟨sid, rfl⟩ := aiSessionKeys_shape s pid k hk
      exact ⟨sid, d, hd, hmo⟩

/-- Witness for the amended C9 at the eleven-session demo store. -/
theorem list_ai_sessions_projection_witness :
    ((list_ai_sessions listSessionsDemoStore ("p".toList)).1).length
        ≤ MAX_AI_SESSIONS ∧
    ∀ m ∈ (list_ai_sessions listSessionsDemoStore ("p".toList)).1, ∃ sid d,
      aget listSessionsDemoStore.kv (RKey.aiSession ("p".toList) sid) = some d ∧
        metaOfSession d = .ok m :=
  list_ai_sessions_projection listSessionsDemoStore ("p".toList) rfl
